import Mathlib

/-!
# Verification of the research_scaner market-making scanner pipeline

A shallow embedding, over `ℚ`, of the analytics and pipeline functions of the
scanner repository:

* `scanner/analytics/spread_stats.py` (`_percentile`, `compute_spread_stats`),
* `scanner/models/spread.py` (`compute_spread_bps`),
* `scanner/analytics/scoring.py` (`score_symbol`),
* `scanner/analytics/depth_metrics.py` (`compute_unwind_slippage_bps`,
  `aggregate_depth_metrics`),
* `scanner/pipeline/depth_check.py` (`_select_candidates`,
  `_evaluate_depth_criteria`, the per-symbol `pass_depth` computation),
* `scanner/pipeline/universe.py` (the first reject-classification pass of
  `build_universe`),
* `scanner/mexc/client.py` (`MexcClient._backoff_sleep`),
* `scanner/pipeline/spread_sampling.py` (the tick loop of
  `run_spread_sampling`).

Python floats are modelled as rationals, fallible functions (those raising
`ValueError`) as `Except String`, and `None`-able values as `Option`.
-/

/-! ## Percentile (`spread_stats._percentile`, also `depth_metrics._percentile`) -/

/-- The interpolation body of `_percentile` at position `p = q·(n−1)`:
`lower = int(floor(position))`, `upper = int(ceil(position))`;
if `lower == upper` return `sorted_values[lower]`, else
`sorted_values[lower] + (sorted_values[upper] - sorted_values[lower]) * weight`
with `weight = position - lower`.  Out-of-range indexing is modelled by
`List.getD _ _ 0`; under the guards of `percentile` all indices are in range. -/
def interpAt (v : List ℚ) (p : ℚ) : ℚ :=
  if (⌊p⌋).toNat = (⌈p⌉).toNat then v.getD (⌊p⌋).toNat 0
  else
    v.getD (⌊p⌋).toNat 0 +
      (v.getD (⌈p⌉).toNat 0 - v.getD (⌊p⌋).toNat 0) * (p - (((⌊p⌋).toNat : ℕ) : ℚ))

/-- `position = percentile * (len(sorted_values) - 1)` followed by `interpAt`. -/
def percentileVal (v : List ℚ) (q : ℚ) : ℚ :=
  interpAt v (q * ((v.length : ℚ) - 1))

/-- `_percentile(sorted_values, percentile)` from
`scanner/analytics/spread_stats.py`: raises on an empty input or a quantile
outside `[0, 1]`, returns `sorted_values[0]` for a single element, and linearly
interpolates otherwise. -/
def percentile (v : List ℚ) (q : ℚ) : Except String ℚ :=
  if v.isEmpty then .error "Percentile requires at least one value"
  else if ¬(0 ≤ q ∧ q ≤ 1) then .error "Percentile must be between 0 and 1"
  else if v.length = 1 then .ok (v.getD 0 0)
  else .ok (percentileVal v q)

/-- The percentile algorithm exactly as §4.6 of the spec words it: position
`p = q·(n−1)`, `lo = floor(p)`, `hi = ceil(p)`, result
`v[lo] + (v[hi]−v[lo])·(p−lo)`; `n=0` is an error and `n=1` returns `v[0]`.
(The spec formula has no separate `lo = hi` branch.) -/
def specPercentile (v : List ℚ) (q : ℚ) : Except String ℚ :=
  if v.length = 0 then .error "Percentile requires at least one value"
  else if v.length = 1 then .ok (v.getD 0 0)
  else
    .ok (v.getD (⌊q * ((v.length : ℚ) - 1)⌋).toNat 0 +
      (v.getD (⌈q * ((v.length : ℚ) - 1)⌉).toNat 0 -
        v.getD (⌊q * ((v.length : ℚ) - 1)⌋).toNat 0) *
      (q * ((v.length : ℚ) - 1) - (((⌊q * ((v.length : ℚ) - 1)⌋).toNat : ℕ) : ℚ)))

lemma interpAt_eq_formula (v : List ℚ) (p : ℚ) :
    interpAt v p =
      v.getD (⌊p⌋).toNat 0 +
        (v.getD (⌈p⌉).toNat 0 - v.getD (⌊p⌋).toNat 0) * (p - ((⌊p⌋).toNat : ℚ)) := by
  unfold interpAt
  split_ifs with h
  · rw [h]; ring
  · rfl

lemma percentile_eq_ok {v : List ℚ} {q : ℚ} (hv : v ≠ []) (h0 : 0 ≤ q) (h1 : q ≤ 1) :
    percentile v q = .ok (percentileVal v q) := by
  unfold percentile
  rw [if_neg (by simpa [List.isEmpty_iff] using hv), if_neg (by simp [h0, h1])]
  by_cases hlen : v.length = 1
  · rw [if_pos hlen]
    unfold percentileVal
    rw [hlen]
    norm_num [interpAt]
  · rw [if_neg hlen]

/-! ### Helper lemmas about sorted access and floor/ceil indices -/

lemma sorted_getD_mono {v : List ℚ} (hs : List.Sorted (· ≤ ·) v) {i j : ℕ}
    (hij : i ≤ j) (hj : j < v.length) : v.getD i 0 ≤ v.getD j 0 := by
  have hi : i < v.length := lt_of_le_of_lt hij hj
  rw [List.getD_eq_getElem v 0 hi, List.getD_eq_getElem v 0 hj]
  rcases lt_or_eq_of_le hij with h | rfl
  · exact hs.rel_get_of_lt (show (⟨i, hi⟩ : Fin v.length) < ⟨j, hj⟩ from h)
  · exact le_refl _

lemma floor_toNat_cast {p : ℚ} (hp : 0 ≤ p) : (((⌊p⌋).toNat : ℕ) : ℚ) = ⌊p⌋ := by
  exact_mod_cast Int.toNat_of_nonneg (Int.floor_nonneg.mpr hp)

lemma ceil_toNat_le {p : ℚ} {n : ℕ} (hn : 1 ≤ n) (hp : p ≤ (n : ℚ) - 1) :
    (⌈p⌉).toNat ≤ n - 1 := by
  have h1 : ⌈p⌉ ≤ (n : ℤ) - 1 := by
    have h2 : ⌈p⌉ ≤ ⌈(n : ℚ) - 1⌉ := Int.ceil_le_ceil hp
    rwa [show ((n : ℚ) - 1) = (((n : ℤ) - 1 : ℤ) : ℚ) by push_cast; ring,
      Int.ceil_intCast] at h2
  omega

lemma interpAt_ge {v : List ℚ} (hs : List.Sorted (· ≤ ·) v) {p : ℚ}
    (hp0 : 0 ≤ p) (hup : (⌈p⌉).toNat < v.length) :
    v.getD (⌊p⌋).toNat 0 ≤ interpAt v p := by
  rw [interpAt_eq_formula]
  have hw : 0 ≤ p - (((⌊p⌋).toNat : ℕ) : ℚ) := by
    rw [floor_toNat_cast hp0]
    exact sub_nonneg.mpr (Int.floor_le p)
  have hmono : v.getD (⌊p⌋).toNat 0 ≤ v.getD (⌈p⌉).toNat 0 :=
    sorted_getD_mono hs (Int.toNat_le_toNat (Int.floor_le_ceil p)) hup
  nlinarith [mul_nonneg (sub_nonneg.mpr hmono) hw]

lemma interpAt_le {v : List ℚ} (hs : List.Sorted (· ≤ ·) v) {p : ℚ}
    (hp0 : 0 ≤ p) (hup : (⌈p⌉).toNat < v.length) :
    interpAt v p ≤ v.getD (⌈p⌉).toNat 0 := by
  rw [interpAt_eq_formula]
  have hw1 : p - (((⌊p⌋).toNat : ℕ) : ℚ) ≤ 1 := by
    rw [floor_toNat_cast hp0]
    linarith [Int.lt_floor_add_one p]
  have hmono : v.getD (⌊p⌋).toNat 0 ≤ v.getD (⌈p⌉).toNat 0 :=
    sorted_getD_mono hs (Int.toNat_le_toNat (Int.floor_le_ceil p)) hup
  nlinarith [mul_nonneg (sub_nonneg.mpr hmono) (sub_nonneg.mpr hw1)]

lemma interpAt_mono {v : List ℚ} (hs : List.Sorted (· ≤ ·) v) (hn : v ≠ [])
    {p1 p2 : ℚ} (h0 : 0 ≤ p1) (h12 : p1 ≤ p2) (h2 : p2 ≤ (v.length : ℚ) - 1) :
    interpAt v p1 ≤ interpAt v p2 := by
  have hlen : 1 ≤ v.length := List.length_pos.mpr hn
  have h01 : 0 ≤ p2 := le_trans h0 h12
  have h1' : p1 ≤ (v.length : ℚ) - 1 := le_trans h12 h2
  have hup2 : (⌈p2⌉).toNat < v.length := by
    have := ceil_toNat_le hlen h2; omega
  have hup1 : (⌈p1⌉).toNat < v.length := by
    have := ceil_toNat_le hlen h1'; omega
  have hfl0 : 0 ≤ ⌊p1⌋ := Int.floor_nonneg.mpr h0
  have hfl0' : 0 ≤ ⌊p2⌋ := Int.floor_nonneg.mpr h01
  by_cases hf : ⌊p1⌋ = ⌊p2⌋
  · by_cases heq : p1 = p2
    · rw [heq]
    · by_cases hint : p1 = ((⌊p1⌋ : ℤ) : ℚ)
      · have e1 : interpAt v p1 = v.getD (⌊p1⌋).toNat 0 := by
          rw [interpAt_eq_formula, floor_toNat_cast h0, ← hint]
          ring
        rw [e1, hf]
        exact interpAt_ge hs h01 hup2
      · -- p1 is not an integer, hence ⌈p1⌉ = ⌊p1⌋ + 1
        have hlt1 : ((⌊p1⌋ : ℤ) : ℚ) < p1 :=
          lt_of_le_of_ne (Int.floor_le p1) (fun h => hint h.symm)
        have hc1 : ⌈p1⌉ = ⌊p1⌋ + 1 := by
          have hge : ⌊p1⌋ < ⌈p1⌉ := by
            have : ((⌊p1⌋ : ℤ) : ℚ) < ((⌈p1⌉ : ℤ) : ℚ) := lt_of_lt_of_le hlt1 (Int.le_ceil p1)
            exact_mod_cast this
          have := Int.ceil_le_floor_add_one p1
          omega
        have hne2 : p2 ≠ ((⌊p2⌋ : ℤ) : ℚ) := by
          intro h
          rw [← hf] at h
          have : p2 < p1 := by rw [h]; exact hlt1
          linarith
        have hlt2 : ((⌊p2⌋ : ℤ) : ℚ) < p2 :=
          lt_of_le_of_ne (Int.floor_le p2) (fun h => hne2 h.symm)
        have hc2 : ⌈p2⌉ = ⌊p2⌋ + 1 := by
          have hge : ⌊p2⌋ < ⌈p2⌉ := by
            have : ((⌊p2⌋ : ℤ) : ℚ) < ((⌈p2⌉ : ℤ) : ℚ) := lt_of_lt_of_le hlt2 (Int.le_ceil p2)
            exact_mod_cast this
          have := Int.ceil_le_floor_add_one p2
          omega
        have ht1 : (⌈p1⌉).toNat = (⌊p1⌋).toNat + 1 := by rw [hc1]; omega
        have ht2 : (⌈p2⌉).toNat = (⌊p1⌋).toNat + 1 := by rw [hc2, ← hf]; omega
        have htf : (⌊p2⌋).toNat = (⌊p1⌋).toNat := by rw [hf]
        have hB : v.getD (⌊p1⌋).toNat 0 ≤ v.getD ((⌊p1⌋).toNat + 1) 0 :=
          sorted_getD_mono hs (Nat.le_succ _) (ht2 ▸ hup2)
        rw [interpAt_eq_formula v p1, interpAt_eq_formula v p2, ht1, ht2, htf,
          floor_toNat_cast h0]
        nlinarith [mul_nonneg (sub_nonneg.mpr hB) (sub_nonneg.mpr h12)]
  · have hlt : ⌊p1⌋ < ⌊p2⌋ := lt_of_le_of_ne (Int.floor_le_floor h12) hf
    have hmid1 : (⌈p1⌉).toNat ≤ (⌊p2⌋).toNat := by
      have := Int.ceil_le_floor_add_one p1
      omega
    have hmid2 : (⌊p2⌋).toNat ≤ (⌈p2⌉).toNat := Int.toNat_le_toNat (Int.floor_le_ceil p2)
    calc interpAt v p1 ≤ v.getD (⌈p1⌉).toNat 0 := interpAt_le hs h0 hup1
      _ ≤ v.getD (⌊p2⌋).toNat 0 := sorted_getD_mono hs hmid1 (lt_of_le_of_lt hmid2 hup2)
      _ ≤ interpAt v p2 := interpAt_ge hs h01 hup2

lemma percentile_eq_spec {v : List ℚ} {q : ℚ} (hv : v ≠ []) (h0 : 0 ≤ q) (h1 : q ≤ 1) :
    percentile v q = specPercentile v q := by
  rw [percentile_eq_ok hv h0 h1]
  unfold specPercentile
  rw [if_neg (by simpa using hv)]
  by_cases hlen : v.length = 1
  · rw [if_pos hlen]
    unfold percentileVal
    rw [hlen]
    norm_num [interpAt]
  · rw [if_neg hlen]
    unfold percentileVal
    rw [interpAt_eq_formula]

lemma percentileVal_mono {v : List ℚ} (hs : List.Sorted (· ≤ ·) v) (hn : v ≠ [])
    {q1 q2 : ℚ} (h0 : 0 ≤ q1) (h12 : q1 ≤ q2) (h2 : q2 ≤ 1) :
    percentileVal v q1 ≤ percentileVal v q2 := by
  have hlen : 1 ≤ v.length := List.length_pos.mpr hn
  have hc : 0 ≤ (v.length : ℚ) - 1 := by
    have h1 : (1 : ℚ) ≤ (v.length : ℚ) := by exact_mod_cast hlen
    linarith
  unfold percentileVal
  apply interpAt_mono hs hn (mul_nonneg h0 hc) (mul_le_mul_of_nonneg_right h12 hc)
  calc q2 * ((v.length : ℚ) - 1) ≤ 1 * ((v.length : ℚ) - 1) :=
        mul_le_mul_of_nonneg_right h2 hc
    _ = (v.length : ℚ) - 1 := one_mul _

/-! ## Median (`statistics.median` as used by `compute_spread_stats`) -/

/-- Python's `statistics.median` applied to an already sorted list: the middle
element for odd length, the mean of the two middle elements for even length. -/
def pyMedianSorted (v : List ℚ) : ℚ :=
  if v.length % 2 = 1 then v.getD (v.length / 2) 0
  else (v.getD (v.length / 2 - 1) 0 + v.getD (v.length / 2) 0) / 2

/-- Python's `statistics.median`: sorts its argument, then picks the middle. -/
def statisticsMedian (l : List ℚ) : ℚ := pyMedianSorted l.mergeSort

lemma pyMedianSorted_eq_half (v : List ℚ) (hv : v ≠ []) :
    pyMedianSorted v = percentileVal v (1 / 2) := by
  have hlen : 1 ≤ v.length := List.length_pos.mpr hv
  unfold pyMedianSorted percentileVal
  rcases Nat.even_or_odd v.length with he | ho
  · obtain ⟨k, hk⟩ := he
    have hk1 : 1 ≤ k := by omega
    have hp : (1 / 2 : ℚ) * ((v.length : ℚ) - 1) = (k : ℚ) - 1 / 2 := by
      rw [hk]; push_cast; ring
    have hfloor : ⌊(1 / 2 : ℚ) * ((v.length : ℚ) - 1)⌋ = (k : ℤ) - 1 := by
      rw [hp, Int.floor_eq_iff]
      push_cast
      constructor <;> linarith
    have hceil : ⌈(1 / 2 : ℚ) * ((v.length : ℚ) - 1)⌉ = (k : ℤ) := by
      rw [hp, Int.ceil_eq_iff]
      push_cast
      constructor <;> linarith
    have htlo : ((k : ℤ) - 1).toNat = k - 1 := by omega
    have hthi : ((k : ℤ)).toNat = k := by omega
    have hmod : ¬(v.length % 2 = 1) := by omega
    have hdiv : v.length / 2 = k := by omega
    rw [interpAt_eq_formula, hfloor, hceil, htlo, hthi, if_neg hmod, hdiv, hp]
    have hcast : ((k - 1 : ℕ) : ℚ) = (k : ℚ) - 1 := by
      push_cast [Nat.cast_sub hk1]
      ring
    rw [hcast]
    ring
  · obtain ⟨k, hk⟩ := ho
    have hp : (1 / 2 : ℚ) * ((v.length : ℚ) - 1) = (k : ℚ) := by
      rw [hk]; push_cast; ring
    have hfloor : ⌊(1 / 2 : ℚ) * ((v.length : ℚ) - 1)⌋ = (k : ℤ) := by
      rw [hp]; exact_mod_cast Int.floor_natCast k
    have hceil : ⌈(1 / 2 : ℚ) * ((v.length : ℚ) - 1)⌉ = (k : ℤ) := by
      rw [hp]; exact_mod_cast Int.ceil_natCast k
    have hmod : v.length % 2 = 1 := by omega
    have hdiv : v.length / 2 = k := by omega
    rw [interpAt_eq_formula, hfloor, hceil, if_pos hmod, hdiv]
    have ht : ((k : ℤ)).toNat = k := by omega
    rw [ht]
    ring

/-! ## Spread samples and statistics
(`scanner/models/spread.py`, `scanner/analytics/spread_stats.py`) -/

/-- `MIN_SAMPLE_COUNT = 3` from `spread_stats.py`. -/
def MIN_SAMPLE_COUNT : ℕ := 3

/-- `SpreadSample(symbol, bid, ask)`. -/
structure SpreadSample where
  symbol : String
  bid : ℚ
  ask : ℚ

/-- `compute_spread_bps(bid, ask)` from `scanner/models/spread.py`:
`mid = (bid + ask) / 2`; raises `ValueError` when `mid <= 0`; otherwise
returns `(ask - bid) / mid * 10_000`.  (Note: it does not reject
`bid >= ask` by itself.) -/
def computeSpreadBps (bid ask : ℚ) : Except String ℚ :=
  if (bid + ask) / 2 ≤ 0 then .error "Mid price must be positive"
  else .ok ((ask - bid) / ((bid + ask) / 2) * 10000)

/-- `SpreadStats` dataclass; 24h-enrichment fields keep their Python defaults. -/
structure SpreadStats where
  symbol : Option String
  sample_count : ℕ
  valid_samples : ℕ
  invalid_quotes : ℕ
  spread_median_bps : Option ℚ
  spread_p10_bps : Option ℚ
  spread_p25_bps : Option ℚ
  spread_p90_bps : Option ℚ
  uptime : ℚ
  insufficient_samples : Bool
  quote_volume_24h : Option ℚ := none
  quote_volume_24h_raw : Option ℚ := none
  volume_24h_raw : Option ℚ := none
  mid_price : Option ℚ := none
  quote_volume_24h_est : Option ℚ := none
  quote_volume_24h_effective : Option ℚ := none
  trades_24h : Option ℤ := none
  missing_24h_stats : Bool := false
  missing_24h_reason : Option String := none

/-- The `spreads` list accumulated by the loop in `compute_spread_stats`:
every sample whose `compute_spread_bps` does not raise contributes its value,
in order. -/
def validSpreadsOf (samples : List SpreadSample) : List ℚ :=
  samples.filterMap (fun s => (computeSpreadBps s.bid s.ask).toOption)

/-- `spreads_sorted = sorted(spreads)`. -/
def sortedSpreadsOf (samples : List SpreadSample) : List ℚ :=
  (validSpreadsOf samples).mergeSort

/-- The `SpreadStats` value built by `compute_spread_stats` after its emptiness
guard.  `invalid_quotes` counts the samples whose `compute_spread_bps` raised;
the percentile calls are in range (`spreads_sorted` non-empty, `q ∈ [0,1]`),
so `_percentile` is modelled by its non-raising value `percentileVal`. -/
def spreadStatsOf (samples : List SpreadSample) : SpreadStats :=
  let symbol := (samples.find? (fun s => s.symbol ≠ "")).map (·.symbol)
  let spreads := validSpreadsOf samples
  let sample_count := samples.length
  let valid_samples := spreads.length
  let invalid_quotes :=
    samples.countP (fun s => (computeSpreadBps s.bid s.ask).toOption.isNone)
  let uptime : ℚ := if sample_count ≠ 0 then (valid_samples : ℚ) / sample_count else 0
  let insufficient_samples := decide (valid_samples < MIN_SAMPLE_COUNT)
  if spreads = [] then
    { symbol := symbol
      sample_count := sample_count
      valid_samples := valid_samples
      invalid_quotes := invalid_quotes
      spread_median_bps := none
      spread_p10_bps := none
      spread_p25_bps := none
      spread_p90_bps := none
      uptime := uptime
      insufficient_samples := insufficient_samples }
  else
    { symbol := symbol
      sample_count := sample_count
      valid_samples := valid_samples
      invalid_quotes := invalid_quotes
      spread_median_bps := some (statisticsMedian (sortedSpreadsOf samples))
      spread_p10_bps := some (percentileVal (sortedSpreadsOf samples) (1 / 10))
      spread_p25_bps := some (percentileVal (sortedSpreadsOf samples) (1 / 4))
      spread_p90_bps := some (percentileVal (sortedSpreadsOf samples) (9 / 10))
      uptime := uptime
      insufficient_samples := insufficient_samples }

/-- `compute_spread_stats(samples)`: raises on an empty sample list, otherwise
returns `spreadStatsOf samples`. -/
def computeSpreadStats (samples : List SpreadSample) : Except String SpreadStats :=
  if samples.isEmpty then .error "No samples provided for spread stats"
  else .ok (spreadStatsOf samples)

lemma sortedSpreadsOf_sorted (samples : List SpreadSample) :
    List.Sorted (· ≤ ·) (sortedSpreadsOf samples) :=
  List.sorted_mergeSort' _

lemma sortedSpreadsOf_ne_nil {samples : List SpreadSample}
    (h : validSpreadsOf samples ≠ []) : sortedSpreadsOf samples ≠ [] := by
  unfold sortedSpreadsOf
  intro hcon
  apply h
  have := congrArg List.length hcon
  rw [List.length_mergeSort] at this
  exact List.length_eq_zero.mp this

lemma statisticsMedian_of_sorted {v : List ℚ} (hs : List.Sorted (· ≤ ·) v) :
    statisticsMedian v = pyMedianSorted v := by
  unfold statisticsMedian
  rw [List.mergeSort_eq_self hs]

lemma computeSpreadBps_isNone (b a : ℚ) :
    (computeSpreadBps b a).toOption.isNone = decide ((b + a) / 2 ≤ 0) := by
  unfold computeSpreadBps
  split_ifs with h <;> simp [Except.toOption, h]

lemma validSpreadsOf_length (samples : List SpreadSample) :
    (validSpreadsOf samples).length +
      samples.countP (fun s => decide ((s.bid + s.ask) / 2 ≤ 0)) = samples.length := by
  unfold validSpreadsOf
  induction samples with
  | nil => simp
  | cons a t ih =>
    by_cases hc : (a.bid + a.ask) / 2 ≤ 0
    · have h1 : (computeSpreadBps a.bid a.ask).toOption = none := by
        unfold computeSpreadBps
        rw [if_pos hc]
        rfl
      have h2 : (fun s : SpreadSample => decide ((s.bid + s.ask) / 2 ≤ 0)) a = true := by
        simpa using hc
      simp only [List.filterMap_cons, h1, List.countP_cons, List.length_cons, h2, if_pos]
      omega
    · have h1 : (computeSpreadBps a.bid a.ask).toOption =
          some ((a.ask - a.bid) / ((a.bid + a.ask) / 2) * 10000) := by
        unfold computeSpreadBps
        rw [if_neg hc]
        rfl
      have h2 : (fun s : SpreadSample => decide ((s.bid + s.ask) / 2 ≤ 0)) a = false := by
        simpa using hc
      simp only [List.filterMap_cons, h1, List.countP_cons, List.length_cons, h2,
        Bool.false_eq_true, if_false]
      omega

lemma countP_invalid_eq (samples : List SpreadSample) :
    samples.countP (fun s => (computeSpreadBps s.bid s.ask).toOption.isNone) =
      samples.countP (fun s => decide ((s.bid + s.ask) / 2 ≤ 0)) :=
  List.countP_congr (fun s _ => by rw [computeSpreadBps_isNone])

lemma spreadStatsOf_invalid_quotes (samples : List SpreadSample) :
    (spreadStatsOf samples).invalid_quotes =
      samples.countP (fun s => decide ((s.bid + s.ask) / 2 ≤ 0)) := by
  simp only [spreadStatsOf]
  split_ifs <;> exact countP_invalid_eq samples

lemma spreadStatsOf_valid_samples (samples : List SpreadSample) :
    (spreadStatsOf samples).valid_samples +
      (spreadStatsOf samples).invalid_quotes = samples.length := by
  rw [spreadStatsOf_invalid_quotes]
  have hv : (spreadStatsOf samples).valid_samples = (validSpreadsOf samples).length := by
    simp only [spreadStatsOf]
    split_ifs <;> rfl
  rw [hv]
  exact validSpreadsOf_length samples

lemma spreadStatsOf_percentiles {samples : List SpreadSample}
    (hsp : validSpreadsOf samples ≠ []) :
    (spreadStatsOf samples).spread_median_bps =
        some (percentileVal (sortedSpreadsOf samples) (1 / 2)) ∧
      (spreadStatsOf samples).spread_p10_bps =
        some (percentileVal (sortedSpreadsOf samples) (1 / 10)) ∧
      (spreadStatsOf samples).spread_p25_bps =
        some (percentileVal (sortedSpreadsOf samples) (1 / 4)) ∧
      (spreadStatsOf samples).spread_p90_bps =
        some (percentileVal (sortedSpreadsOf samples) (9 / 10)) := by
  have hmed : statisticsMedian (sortedSpreadsOf samples) =
      percentileVal (sortedSpreadsOf samples) (1 / 2) := by
    rw [statisticsMedian_of_sorted (sortedSpreadsOf_sorted samples),
      pyMedianSorted_eq_half _ (sortedSpreadsOf_ne_nil hsp)]
  simp only [spreadStatsOf]
  rw [if_neg hsp]
  exact ⟨congrArg some hmed, rfl, rfl, rfl⟩

lemma spreadStatsOf_median_none {samples : List SpreadSample}
    (hsp : validSpreadsOf samples = []) :
    (spreadStatsOf samples).spread_median_bps = none := by
  simp only [spreadStatsOf]
  rw [if_pos hsp]

/-- The per-entry validity check of the tick loop in `run_spread_sampling`
(`scanner/pipeline/spread_sampling.py`): after parsing, a quote is counted
into `invalid_count` iff bid or ask failed to parse (`None`) or is
non-positive; otherwise it is written to the raw file. -/
def tickQuoteInvalid (bid ask : Option ℚ) : Bool :=
  bid.isNone || ask.isNone || decide (bid.getD 0 ≤ 0) || decide (ask.getD 0 ≤ 0)

/-- Claim C1, counterexample: the sample `(bid, ask) = (100, 99)` has positive
bid and ask with `bid ≥ ask`, yet `compute_spread_stats` does not count it
invalid: on `[(100, 101), (100, 99)]` it reports `invalid_quotes = 0` and
`valid_samples = 2`, so the crossed sample is included in the spread
statistics, contrary to the claim. -/
theorem crossed_quote_counted_valid_cex :
    (computeSpreadStats
        [SpreadSample.mk "BTCUSDT" 100 101, SpreadSample.mk "BTCUSDT" 100 99]).map
      (fun st => (st.invalid_quotes, st.valid_samples)) = .ok (0, 2) := by
  have hinv : (spreadStatsOf
      [SpreadSample.mk "BTCUSDT" 100 101, SpreadSample.mk "BTCUSDT" 100 99]).invalid_quotes
      = 0 := by
    rw [spreadStatsOf_invalid_quotes]
    norm_num [List.countP_cons, List.countP_nil]
  have hval : (spreadStatsOf
      [SpreadSample.mk "BTCUSDT" 100 101, SpreadSample.mk "BTCUSDT" 100 99]).valid_samples
      = 2 := by
    have h3 := spreadStatsOf_valid_samples
      [SpreadSample.mk "BTCUSDT" 100 101, SpreadSample.mk "BTCUSDT" 100 99]
    rw [hinv] at h3
    simpa using h3
  unfold computeSpreadStats
  rw [if_neg (by simp)]
  simp only [Except.map, hinv, hval]

/-- Claim C1 (amended): in `compute_spread_stats` a sample is counted invalid
exactly when its midprice `(bid+ask)/2` is non-positive (`compute_spread_bps`
raises only on that condition), and every other sample is counted valid, so
`valid_samples + invalid_quotes = sample_count`; in the sampling loop of
`run_spread_sampling` a parsed quote is counted invalid only when bid or ask
is missing or non-positive — in both places a quote with `bid ≥ ask` but
positive bid and ask is treated as valid. -/
theorem invalid_quotes_iff_mid_nonpos :
    (∀ samples : List SpreadSample, samples ≠ [] →
      ∃ stats, computeSpreadStats samples = .ok stats ∧
        stats.invalid_quotes =
          samples.countP (fun s => decide ((s.bid + s.ask) / 2 ≤ 0)) ∧
        stats.valid_samples + stats.invalid_quotes = samples.length) ∧
    (∀ b a : ℚ, 0 < b → 0 < a → tickQuoteInvalid (some b) (some a) = false) := by
  constructor
  · intro samples h
    refine ⟨spreadStatsOf samples, ?_, spreadStatsOf_invalid_quotes samples,
      spreadStatsOf_valid_samples samples⟩
    unfold computeSpreadStats
    rw [if_neg (by simpa [List.isEmpty_iff] using h)]
  · intro b a hb ha
    simp [tickQuoteInvalid, not_le.mpr hb, not_le.mpr ha]

/-- Claim C1, witness: instantiating the amended theorem at a one-sample list
and a concrete positive quote. -/
theorem invalid_quotes_iff_mid_nonpos_witness :
    (∃ stats, computeSpreadStats [SpreadSample.mk "X" 1 2] = .ok stats ∧
      stats.invalid_quotes =
        [SpreadSample.mk "X" 1 2].countP (fun s => decide ((s.bid + s.ask) / 2 ≤ 0)) ∧
      stats.valid_samples + stats.invalid_quotes = 1) ∧
      tickQuoteInvalid (some 3) (some 2) = false :=
  ⟨invalid_quotes_iff_mid_nonpos.1 [SpreadSample.mk "X" 1 2] (by simp),
    invalid_quotes_iff_mid_nonpos.2 3 2 (by norm_num) (by norm_num)⟩

/-- Claim C2: `_percentile` agrees with the spec's linear-interpolation
definition on every non-empty vector and `q ∈ [0,1]`; `n = 0` is an error and
`n = 1` returns `v[0]`; on `[10, 20, 30, 40, 50]` the median is `30`, p10 is
`14`, p25 is `20` and p90 is `46`; and the median reported by
`compute_spread_stats` equals `percentile(0.5)` of the sorted spread vector. -/
theorem percentile_matches_spec :
    (∀ (v : List ℚ) (q : ℚ), v ≠ [] → 0 ≤ q → q ≤ 1 →
      percentile v q = specPercentile v q) ∧
    (∀ q : ℚ, percentile [] q = .error "Percentile requires at least one value") ∧
    (∀ x q : ℚ, 0 ≤ q → q ≤ 1 → percentile [x] q = .ok x) ∧
    percentile [10, 20, 30, 40, 50] (1 / 2) = .ok 30 ∧
    percentile [10, 20, 30, 40, 50] (1 / 10) = .ok 14 ∧
    percentile [10, 20, 30, 40, 50] (1 / 4) = .ok 20 ∧
    percentile [10, 20, 30, 40, 50] (9 / 10) = .ok 46 ∧
    (∀ (samples : List SpreadSample) (stats : SpreadStats) (m : ℚ),
      computeSpreadStats samples = .ok stats → stats.spread_median_bps = some m →
      percentile (sortedSpreadsOf samples) (1 / 2) = .ok m) := by
  refine ⟨fun v q hv h0 h1 => percentile_eq_spec hv h0 h1, fun q => rfl,
    ?_, ?_, ?_, ?_, ?_, ?_⟩
  · intro x q h0 h1
    rw [percentile_eq_ok (by simp) h0 h1]
    norm_num [percentileVal, interpAt]
  · rw [percentile_eq_ok (by simp) (by norm_num) (by norm_num)]
    have hc : ⌈(2 : ℚ)⌉ = 2 := by
      rw [Int.ceil_eq_iff] <;> norm_num
    norm_num [percentileVal, interpAt, hc, show Int.toNat 2 = 2 from rfl]
  · rw [percentile_eq_ok (by simp) (by norm_num) (by norm_num)]
    have hc : ⌈(2 / 5 : ℚ)⌉ = 1 := by
      rw [Int.ceil_eq_iff] <;> norm_num
    norm_num [percentileVal, interpAt, hc, Int.toNat_ofNat]
  · rw [percentile_eq_ok (by simp) (by norm_num) (by norm_num)]
    have hc : ⌈(1 : ℚ)⌉ = 1 := by
      rw [Int.ceil_eq_iff] <;> norm_num
    norm_num [percentileVal, interpAt, hc, Int.toNat_ofNat]
  · rw [percentile_eq_ok (by simp) (by norm_num) (by norm_num)]
    have hc : ⌈(18 / 5 : ℚ)⌉ = 4 := by
      rw [Int.ceil_eq_iff] <;> norm_num
    norm_num [percentileVal, interpAt, hc, show Int.toNat 3 = 3 from rfl,
      show Int.toNat 4 = 4 from rfl]
  · intro samples stats m hok hm
    unfold computeSpreadStats at hok
    by_cases hemp : samples.isEmpty
    · rw [if_pos hemp] at hok
      exact absurd hok (by simp)
    · rw [if_neg hemp] at hok
      simp only [Except.ok.injEq] at hok
      subst hok
      by_cases hsp : validSpreadsOf samples = []
      · rw [spreadStatsOf_median_none hsp] at hm
        exact absurd hm (by simp)
      · obtain ⟨hmed, _, _, _⟩ := spreadStatsOf_percentiles hsp
        rw [hmed] at hm
        simp only [Option.some.injEq] at hm
        rw [percentile_eq_ok (sortedSpreadsOf_ne_nil hsp) (by norm_num) (by norm_num), hm]

/-- Claim C2, witness: the spec-agreement part of the theorem instantiated at
the singleton vector `[3]` and `q = 0`. -/
theorem percentile_matches_spec_witness :
    percentile [(3 : ℚ)] 0 = specPercentile [(3 : ℚ)] 0 :=
  percentile_matches_spec.1 [(3 : ℚ)] 0 (by simp) le_rfl zero_le_one

/-- Claim C7: for every `SpreadStats` produced by `compute_spread_stats` whose
four percentile fields are all defined, `spread_p10_bps ≤ spread_p25_bps ≤
spread_median_bps ≤ spread_p90_bps` — monotonicity of the interpolated
percentile in `q` over the same sorted spread vector. -/
theorem spread_percentile_ordering :
    ∀ (samples : List SpreadSample) (stats : SpreadStats),
      computeSpreadStats samples = .ok stats →
      ∀ a b c d : ℚ, stats.spread_p10_bps = some a → stats.spread_p25_bps = some b →
        stats.spread_median_bps = some c → stats.spread_p90_bps = some d →
        a ≤ b ∧ b ≤ c ∧ c ≤ d := by
  intro samples stats hok a b c d ha hb hc hd
  unfold computeSpreadStats at hok
  by_cases hemp : samples.isEmpty
  · rw [if_pos hemp] at hok
    exact absurd hok (by simp)
  · rw [if_neg hemp] at hok
    simp only [Except.ok.injEq] at hok
    subst hok
    by_cases hsp : validSpreadsOf samples = []
    · rw [spreadStatsOf_median_none hsp] at hc
      exact absurd hc (by simp)
    · obtain ⟨h50, h10, h25, h90⟩ := spreadStatsOf_percentiles hsp
      rw [h10] at ha
      rw [h25] at hb
      rw [h50] at hc
      rw [h90] at hd
      simp only [Option.some.injEq] at ha hb hc hd
      subst ha
      subst hb
      subst hc
      subst hd
      have hs := sortedSpreadsOf_sorted samples
      have hne := sortedSpreadsOf_ne_nil hsp
      exact ⟨percentileVal_mono hs hne (by norm_num) (by norm_num) (by norm_num),
        percentileVal_mono hs hne (by norm_num) (by norm_num) (by norm_num),
        percentileVal_mono hs hne (by norm_num) (by norm_num) (by norm_num)⟩

/-- Claim C7, witness: the ordering theorem applied to the one-sample list
`[("X", 99, 101)]`, whose only spread is `200` bps. -/
theorem spread_percentile_ordering_witness :
    percentileVal (sortedSpreadsOf [SpreadSample.mk "X" 99 101]) (1 / 10) ≤
        percentileVal (sortedSpreadsOf [SpreadSample.mk "X" 99 101]) (1 / 4) ∧
      percentileVal (sortedSpreadsOf [SpreadSample.mk "X" 99 101]) (1 / 4) ≤
        percentileVal (sortedSpreadsOf [SpreadSample.mk "X" 99 101]) (1 / 2) ∧
      percentileVal (sortedSpreadsOf [SpreadSample.mk "X" 99 101]) (1 / 2) ≤
        percentileVal (sortedSpreadsOf [SpreadSample.mk "X" 99 101]) (9 / 10) := by
  have hmid : ¬((99 : ℚ) + 101) / 2 ≤ 0 := by norm_num
  have hsp : validSpreadsOf [SpreadSample.mk "X" 99 101] ≠ [] := by
    simp [validSpreadsOf, computeSpreadBps, hmid, Except.toOption]
  obtain ⟨h50, h10, h25, h90⟩ := spreadStatsOf_percentiles hsp
  exact spread_percentile_ordering [SpreadSample.mk "X" 99 101]
    (spreadStatsOf [SpreadSample.mk "X" 99 101])
    (by unfold computeSpreadStats; rw [if_neg (by simp)])
    _ _ _ _ h10 h25 h50 h90

/-! ## Scoring (`scanner/analytics/scoring.py`) -/

/-- The slice of `AppConfig` read by `score_symbol`: `fees.maker_bps`,
`fees.taker_bps`, `thresholds.buffer_bps`, `thresholds.uptime_min`,
`thresholds.spread.{median_min,median_max,p90_min,p90_max}_bps` and
`thresholds.edge_min_bps`, with the nesting flattened. -/
structure ScoreCfg where
  maker_bps : ℚ
  taker_bps : ℚ
  buffer_bps : ℚ
  uptime_min : ℚ
  median_min_bps : ℚ
  median_max_bps : ℚ
  p90_min_bps : ℚ
  p90_max_bps : ℚ
  edge_min_bps : ℚ

/-- `_edge_mm_bps`: `spread_median - 2*maker_fee - buffer`, `None` without a
median. -/
def edgeMmBps (stats : SpreadStats) (cfg : ScoreCfg) : Option ℚ :=
  match stats.spread_median_bps with
  | none => none
  | some m => some (m - 2 * cfg.maker_bps - cfg.buffer_bps)

/-- `_edge_mt_bps`: `spread_median - (maker_fee + taker_fee) - buffer`. -/
def edgeMtBps (stats : SpreadStats) (cfg : ScoreCfg) : Option ℚ :=
  match stats.spread_median_bps with
  | none => none
  | some m => some (m - (cfg.maker_bps + cfg.taker_bps) - cfg.buffer_bps)

/-- `_edge_mm_p25_bps`: `spread_p25 - 2*maker_fee - buffer`. -/
def edgeMmP25Bps (stats : SpreadStats) (cfg : ScoreCfg) : Option ℚ :=
  match stats.spread_p25_bps with
  | none => none
  | some m => some (m - 2 * cfg.maker_bps - cfg.buffer_bps)

/-- `_net_edge_bps` delegates to `_edge_mm_bps`. -/
def netEdgeBps (stats : SpreadStats) (cfg : ScoreCfg) : Option ℚ :=
  edgeMmBps stats cfg

/-- `ScoreResult` dataclass. -/
structure ScoreResult where
  symbol : String
  spread_stats : SpreadStats
  edge_mm_bps : Option ℚ
  edge_mm_p25_bps : Option ℚ
  edge_mt_bps : Option ℚ
  net_edge_bps : Option ℚ
  pass_spread : Bool
  score : ℚ
  fail_reasons : List String

/-- The `fail_reasons` list accumulated by `score_symbol`, in source order:
`insufficient_samples`, `invalid_quotes`, `low_uptime`, then either the four
corridor checks (median and p90 defined) or a deduplicated
`insufficient_samples`, then `edge_mm_low`. -/
def scoreFailReasons (stats : SpreadStats) (cfg : ScoreCfg) : List String :=
  let r1 := if stats.insufficient_samples then ["insufficient_samples"] else []
  let r2 := r1 ++ if 0 < stats.invalid_quotes then ["invalid_quotes"] else []
  let r3 := r2 ++ if stats.uptime < cfg.uptime_min then ["low_uptime"] else []
  let r4 := r3 ++
    (match stats.spread_median_bps, stats.spread_p90_bps with
      | some m, some p =>
        (if m < cfg.median_min_bps then ["spread_median_low"] else []) ++
        (if cfg.median_max_bps < m then ["spread_median_high"] else []) ++
        (if p < cfg.p90_min_bps then ["spread_p90_low"] else []) ++
        (if cfg.p90_max_bps < p then ["spread_p90_high"] else [])
      | _, _ => if "insufficient_samples" ∈ r3 then [] else ["insufficient_samples"])
  r4 ++
    (match edgeMmBps stats cfg with
      | some e => if e < cfg.edge_min_bps then ["edge_mm_low"] else []
      | none => [])

/-- The `pass_spread` conjunction of `score_symbol` (lines 261-273 of
`scoring.py`). -/
def passSpread (stats : SpreadStats) (cfg : ScoreCfg) : Bool :=
  match stats.spread_median_bps, stats.spread_p90_bps with
  | some m, some p =>
    decide (cfg.uptime_min ≤ stats.uptime) && decide (stats.invalid_quotes = 0) &&
    (!stats.insufficient_samples) &&
    decide (cfg.median_min_bps ≤ m) && decide (m ≤ cfg.median_max_bps) &&
    decide (cfg.p90_min_bps ≤ p) && decide (p ≤ cfg.p90_max_bps) &&
    (match edgeMmBps stats cfg with
      | some e => decide (cfg.edge_min_bps ≤ e)
      | none => false)
  | _, _ => false

/-- `score_symbol(stats, cfg)`. -/
def scoreSymbol (stats : SpreadStats) (cfg : ScoreCfg) : ScoreResult :=
  let edge_mm := edgeMmBps stats cfg
  let volatility_penalty : ℚ :=
    match stats.spread_p90_bps, stats.spread_p10_bps with
    | some p90, some p10 => max (p90 - p10) 0
    | _, _ => 0
  let base_edge : ℚ := max (edge_mm.getD 0) 0
  { symbol :=
      match stats.symbol with
      | some s => if s = "" then "UNKNOWN" else s
      | none => "UNKNOWN"
    spread_stats := stats
    edge_mm_bps := edge_mm
    edge_mm_p25_bps := edgeMmP25Bps stats cfg
    edge_mt_bps := edgeMtBps stats cfg
    net_edge_bps := netEdgeBps stats cfg
    pass_spread := passSpread stats cfg
    score := base_edge + stats.uptime * 100 - volatility_penalty
    fail_reasons := scoreFailReasons stats cfg }

lemma ite_cons_nil_eq_nil {c : Prop} [Decidable c] (s : String) :
    ((if c then [s] else []) = []) ↔ ¬c := by
  split_ifs with h <;> simp [h]

lemma not_mem_ite_singleton {c : Prop} [Decidable c] {s t : String} (hst : t ≠ s) :
    t ∉ (if c then [s] else []) := by
  split_ifs <;> simp [hst]

lemma fail_reasons_tail_ne_nil (stats : SpreadStats) (cfg : ScoreCfg) :
    ((if stats.insufficient_samples then ["insufficient_samples"] else []) ++
        (if 0 < stats.invalid_quotes then ["invalid_quotes"] else []) ++
        (if stats.uptime < cfg.uptime_min then ["low_uptime"] else [])) ++
      (if "insufficient_samples" ∈
          ((if stats.insufficient_samples then ["insufficient_samples"] else []) ++
            (if 0 < stats.invalid_quotes then ["invalid_quotes"] else []) ++
            (if stats.uptime < cfg.uptime_min then ["low_uptime"] else []))
        then [] else ["insufficient_samples"]) ≠ [] := by
  by_cases hmem : "insufficient_samples" ∈
      ((if stats.insufficient_samples then ["insufficient_samples"] else []) ++
        (if 0 < stats.invalid_quotes then ["invalid_quotes"] else []) ++
        (if stats.uptime < cfg.uptime_min then ["low_uptime"] else []))
  · exact List.ne_nil_of_mem (List.mem_append_left _ hmem)
  · have hm2 : "insufficient_samples" ∈
        (if "insufficient_samples" ∈
            ((if stats.insufficient_samples then ["insufficient_samples"] else []) ++
              (if 0 < stats.invalid_quotes then ["invalid_quotes"] else []) ++
              (if stats.uptime < cfg.uptime_min then ["low_uptime"] else []))
          then ([] : List String) else ["insufficient_samples"]) := by
      rw [if_neg hmem]
      simp
    exact List.ne_nil_of_mem (List.mem_append_right _ hm2)

/-- Claim C3: for every `SpreadStats` and threshold configuration, the
`ScoreResult` of `score_symbol` has `fail_reasons = []` iff `pass_spread` is
true, and `missing_24h_stats` never appears among the fail reasons. -/
theorem fail_reasons_empty_iff_pass_spread :
    ∀ (stats : SpreadStats) (cfg : ScoreCfg),
      ((scoreSymbol stats cfg).fail_reasons = [] ↔
        (scoreSymbol stats cfg).pass_spread = true) ∧
      "missing_24h_stats" ∉ (scoreSymbol stats cfg).fail_reasons := by
  intro stats cfg
  constructor
  · show scoreFailReasons stats cfg = [] ↔ passSpread stats cfg = true
    rcases hm : stats.spread_median_bps with _ | m <;>
      rcases hp : stats.spread_p90_bps with _ | p
    · simp only [scoreFailReasons, passSpread, edgeMmBps, hm, hp, Bool.false_eq_true,
        iff_false, List.append_nil]
      exact fail_reasons_tail_ne_nil stats cfg
    · simp only [scoreFailReasons, passSpread, edgeMmBps, hm, hp, Bool.false_eq_true,
        iff_false, List.append_nil]
      exact fail_reasons_tail_ne_nil stats cfg
    · simp only [scoreFailReasons, passSpread, edgeMmBps, hm, hp, Bool.false_eq_true,
        iff_false]
      exact fun hcon =>
        fail_reasons_tail_ne_nil stats cfg (List.append_eq_nil.mp hcon).1
    · simp only [scoreFailReasons, passSpread, edgeMmBps, hm, hp, List.append_eq_nil,
        ite_cons_nil_eq_nil, Bool.and_eq_true, decide_eq_true_eq, Bool.not_eq_true',
        not_lt, Nat.le_zero, Bool.not_eq_true]
      tauto
  · show "missing_24h_stats" ∉ scoreFailReasons stats cfg
    intro h
    simp only [scoreFailReasons, List.mem_append] at h
    rcases h with ((((h | h) | h) | h) | h)
    · exact not_mem_ite_singleton (by simp) h
    · exact not_mem_ite_singleton (by simp) h
    · exact not_mem_ite_singleton (by simp) h
    · rcases hm : stats.spread_median_bps with _ | m <;>
        rcases hp : stats.spread_p90_bps with _ | p <;>
        simp only [hm, hp] at h <;>
        first
        | (revert h; split_ifs <;> simp)
        | simp at h
    · rcases hm : stats.spread_median_bps with _ | m <;>
        simp only [edgeMmBps, hm] at h <;>
        first
        | (revert h; split_ifs <;> simp)
        | simp at h

/-! ## Unwind slippage (`scanner/analytics/depth_metrics.py`) -/

/-- The accumulation loop of `compute_unwind_slippage_bps`: walk the bid
levels best-to-worst with state `(total_quote, total_base, remaining)`; when a
level's notional covers the remainder, fill partially (`fill_qty =
remaining / price`) and stop; otherwise consume the whole level. -/
def unwindWalk : List (ℚ × ℚ) → ℚ → ℚ → ℚ → ℚ × ℚ × ℚ
  | [], total_quote, total_base, remaining => (total_quote, total_base, remaining)
  | (price, qty) :: rest, total_quote, total_base, remaining =>
    if remaining ≤ price * qty then
      (total_quote + remaining, total_base + remaining / price, 0)
    else
      unwindWalk rest (total_quote + price * qty) (total_base + qty)
        (remaining - price * qty)

/-- `compute_unwind_slippage_bps(bids, mid_price, stress_notional)`: raises on
non-positive `mid_price` or `stress_notional`; returns `None` when
`remaining > 0` or `total_base <= 0` after the walk, else
`(mid - total_quote/total_base) / mid * 10_000`. -/
def computeUnwindSlippageBps (bids : List (ℚ × ℚ)) (mid_price stress_notional : ℚ) :
    Except String (Option ℚ) :=
  if mid_price ≤ 0 then .error "Mid price must be positive"
  else if stress_notional ≤ 0 then .error "stress_notional must be positive"
  else
    let r := unwindWalk bids 0 0 stress_notional
    if 0 < r.2.2 ∨ r.2.1 ≤ 0 then .ok none
    else .ok (some ((mid_price - r.1 / r.2.1) / mid_price * 10000))

/-- Total notional of a bid ladder. -/
def sumNotional (bids : List (ℚ × ℚ)) : ℚ := (bids.map (fun l => l.1 * l.2)).sum

lemma sumNotional_nonneg {bids : List (ℚ × ℚ)}
    (hpos : ∀ l ∈ bids, 0 < l.1 ∧ 0 < l.2) : 0 ≤ sumNotional bids := by
  apply List.sum_nonneg
  intro x hx
  obtain ⟨l, hl, rfl⟩ := List.mem_map.mp hx
  have h := hpos l hl
  exact le_of_lt (mul_pos h.1 h.2)

lemma unwindWalk_cannot_fill {bids : List (ℚ × ℚ)}
    (hpos : ∀ l ∈ bids, 0 < l.1 ∧ 0 < l.2) :
    ∀ tq tb rem : ℚ, sumNotional bids < rem →
      unwindWalk bids tq tb rem =
        (tq + sumNotional bids, tb + (bids.map (fun l => l.2)).sum,
          rem - sumNotional bids) := by
  induction bids with
  | nil =>
    intro tq tb rem _
    simp [unwindWalk, sumNotional]
  | cons l rest ih =>
    intro tq tb rem h2
    obtain ⟨p, q⟩ := l
    have hl := hpos (p, q) (List.mem_cons_self _ _)
    have hrest : ∀ x ∈ rest, 0 < x.1 ∧ 0 < x.2 :=
      fun x hx => hpos x (List.mem_cons_of_mem _ hx)
    have hsum : sumNotional ((p, q) :: rest) = p * q + sumNotional rest := by
      simp [sumNotional]
    rw [hsum] at h2
    have hS : 0 ≤ sumNotional rest := sumNotional_nonneg hrest
    have hno : ¬rem ≤ p * q := by simp only [not_le]; linarith
    simp only [unwindWalk, if_neg hno]
    rw [ih hrest _ _ _ (by linarith), hsum]
    refine Prod.ext (by ring) (Prod.ext (by simp; ring) (by simp; ring))

lemma unwindWalk_can_fill {bids : List (ℚ × ℚ)}
    (hpos : ∀ l ∈ bids, 0 < l.1 ∧ 0 < l.2) :
    ∀ tq tb rem : ℚ, 0 < rem → rem ≤ sumNotional bids →
      ∃ base2, tb < base2 ∧ unwindWalk bids tq tb rem = (tq + rem, base2, 0) := by
  induction bids with
  | nil =>
    intro tq tb rem h1 h2
    rw [show sumNotional [] = 0 from by simp [sumNotional]] at h2
    exact absurd (lt_of_lt_of_le h1 h2) (lt_irrefl 0)
  | cons l rest ih =>
    intro tq tb rem h1 h2
    obtain ⟨p, q⟩ := l
    have hl := hpos (p, q) (List.mem_cons_self _ _)
    have hrest : ∀ x ∈ rest, 0 < x.1 ∧ 0 < x.2 :=
      fun x hx => hpos x (List.mem_cons_of_mem _ hx)
    have hsum : sumNotional ((p, q) :: rest) = p * q + sumNotional rest := by
      simp [sumNotional]
    by_cases hfill : rem ≤ p * q
    · refine ⟨tb + rem / p, ?_, ?_⟩
      · have : 0 < rem / p := div_pos h1 hl.1
        linarith
      · simp [unwindWalk, hfill]
    · rw [hsum] at h2
      have hq : 0 < rem - p * q := by
        simp only [not_le] at hfill
        linarith
      obtain ⟨base2, hlt, heq⟩ :=
        ih hrest (tq + p * q) (tb + q) (rem - p * q) hq (by linarith)
      refine ⟨base2, by linarith [hl.2], ?_⟩
      simp only [unwindWalk, if_neg hfill]
      rw [show tq + rem = tq + p * q + (rem - p * q) by ring] at *
      exact heq

/-- Claim C4: for every positive bid ladder, positive mid and stress, the
unwind simulation returns `None` exactly when the ladder's total notional
cannot cover `stress_notional`; otherwise `total_quote` equals exactly
`stress_notional`, `total_base` is positive, and the result is
`(mid - VWAP) / mid * 10_000` with `VWAP = total_quote / total_base`; on bids
`[(100, 1), (99, 1)]` with `mid = 100.5`, stress `100` gives `10000/201`
(≈ 49.75 bps) and stress `10^6` gives `None`. -/
theorem unwind_slippage_spec :
    (∀ (bids : List (ℚ × ℚ)) (mid stress : ℚ),
      (∀ l ∈ bids, 0 < l.1 ∧ 0 < l.2) → 0 < mid → 0 < stress →
      (computeUnwindSlippageBps bids mid stress = .ok none ↔
        sumNotional bids < stress) ∧
      (stress ≤ sumNotional bids →
        ∃ base_sold, 0 < base_sold ∧
          unwindWalk bids 0 0 stress = (stress, base_sold, 0) ∧
          computeUnwindSlippageBps bids mid stress =
            .ok (some ((mid - stress / base_sold) / mid * 10000)))) ∧
    computeUnwindSlippageBps [(100, 1), (99, 1)] (201 / 2) 100 =
      .ok (some (10000 / 201)) ∧
    computeUnwindSlippageBps [(100, 1), (99, 1)] (201 / 2) 1000000 = .ok none := by
  refine ⟨?_, ?_, ?_⟩
  · intro bids mid stress hpos hmid hstress
    constructor
    · unfold computeUnwindSlippageBps
      rw [if_neg (not_le.mpr hmid), if_neg (not_le.mpr hstress)]
      by_cases hcase : sumNotional bids < stress
      · rw [unwindWalk_cannot_fill hpos 0 0 stress hcase]
        have : (0 : ℚ) < stress - sumNotional bids := by linarith
        simp [hcase, this]
      · have hle : stress ≤ sumNotional bids := not_lt.mp hcase
        obtain ⟨base2, hlt, heq⟩ := unwindWalk_can_fill hpos 0 0 stress hstress hle
        rw [heq]
        simp [hcase, not_le.mpr hlt]
    · intro hle
      obtain ⟨base2, hlt, heq⟩ := unwindWalk_can_fill hpos 0 0 stress hstress hle
      rw [zero_add] at heq
      refine ⟨base2, hlt, heq, ?_⟩
      unfold computeUnwindSlippageBps
      rw [if_neg (not_le.mpr hmid), if_neg (not_le.mpr hstress)]
      rw [heq]
      simp [not_le.mpr hlt]
  · norm_num [computeUnwindSlippageBps, unwindWalk]
  · norm_num [computeUnwindSlippageBps, unwindWalk]

/-- Claim C4, witness: on the ladder `[(2, 3)]` with `mid = stress = 1`, the
result is not `None` (total notional `6` covers stress `1`). -/
theorem unwind_slippage_spec_witness :
    ¬(computeUnwindSlippageBps [((2 : ℚ), (3 : ℚ))] 1 1 = .ok none) := by
  intro hcon
  have h := (unwind_slippage_spec.1 [((2 : ℚ), (3 : ℚ))] 1 1
    (by
      intro l hl
      simp only [List.mem_singleton] at hl
      subst hl
      norm_num)
    (by norm_num) (by norm_num)).1
  have h6 := h.mp hcon
  norm_num [sumNotional] at h6

/-! ## Depth check (`scanner/pipeline/depth_check.py`) -/

/-- Python's sort key `(-item.score, item.symbol)` as a Boolean comparison:
`x` sorts no later than `y` iff `x.score > y.score`, or scores tie and
`x.symbol ≤ y.symbol`.  Python's `sorted` is a stable merge sort, modelled by
`List.mergeSort` with this comparison. -/
def scoreKeyLE (x y : ScoreResult) : Bool :=
  decide (y.score < x.score ∨ (x.score = y.score ∧ x.symbol ≤ y.symbol))

/-- `_select_candidates(candidates, limit)` restricted to `ScoreResult`
inputs (the claim's scope; the string-list branch of the source is not
modelled): on an empty input return `([], 0)`; otherwise keep the
`pass_spread` items, and if any remain sort those by `(-score, symbol)` and
truncate to `limit` when `limit > 0`; if none passed, fall back to sorting
and truncating all items.  Returns the selected symbols and the count of
`pass_spread` items. -/
def selectCandidates (items : List ScoreResult) (limit : ℤ) : List String × ℕ :=
  if items.isEmpty then ([], 0)
  else
    let ps := items.filter (·.pass_spread)
    if ps.isEmpty then
      let s0 := items.mergeSort scoreKeyLE
      let s1 := if 0 < limit then s0.take limit.toNat else s0
      (s1.map (·.symbol), ps.length)
    else
      let s0 := ps.mergeSort scoreKeyLE
      let s1 := if 0 < limit then s0.take limit.toNat else s0
      (s1.map (·.symbol), ps.length)

/-- An all-default `SpreadStats`, used to build concrete `ScoreResult`
inputs. -/
def statsEmpty : SpreadStats :=
  { symbol := none
    sample_count := 0
    valid_samples := 0
    invalid_quotes := 0
    spread_median_bps := none
    spread_p10_bps := none
    spread_p25_bps := none
    spread_p90_bps := none
    uptime := 0
    insufficient_samples := true }

/-- A concrete `ScoreResult` with `pass_spread = false` and score `5`. -/
def failResAAA : ScoreResult :=
  { symbol := "AAA"
    spread_stats := statsEmpty
    edge_mm_bps := none
    edge_mm_p25_bps := none
    edge_mt_bps := none
    net_edge_bps := none
    pass_spread := false
    score := 5
    fail_reasons := ["insufficient_samples"] }

/-- Claim C5, counterexample: with the single candidate `failResAAA`
(`pass_spread = false`, limit `10`) no symbol passed spread, yet the selected
list is `["AAA"]`, not the empty list the claim requires — `_select_candidates`
falls back to ranking all candidates when none passed. -/
theorem select_candidates_fallback_cex :
    (selectCandidates [failResAAA] 10).1 = ["AAA"] ∧ (["AAA"] : List String) ≠ [] := by
  constructor
  · simp [selectCandidates, failResAAA, List.mergeSort, List.filter]
  · simp

/-- Claim C5 (amended): for `ScoreResult` candidates and a positive limit,
when at least one item has `pass_spread = true` the selection is exactly the
passing items sorted by `(-score, symbol)`, truncated to the limit, paired
with the count of passing items; when the input is non-empty but nothing
passed spread, `_select_candidates` instead returns the same sort-and-truncate
of all items — in particular a non-empty, not empty, selection (and
`run_depth_check` raises `ValueError` on an empty selection rather than
proceeding). -/
theorem select_candidates_amended :
    ∀ (items : List ScoreResult) (limit : ℤ), 0 < limit →
      (items.filter (·.pass_spread) ≠ [] →
        selectCandidates items limit =
          ((((items.filter (·.pass_spread)).mergeSort scoreKeyLE).take limit.toNat).map
              (·.symbol),
            (items.filter (·.pass_spread)).length)) ∧
      (items ≠ [] → items.filter (·.pass_spread) = [] →
        (selectCandidates items limit).1 =
            ((items.mergeSort scoreKeyLE).take limit.toNat).map (·.symbol) ∧
          (selectCandidates items limit).1 ≠ []) := by
  intro items limit hlim
  constructor
  · intro hps
    have hne : ¬items.isEmpty := by
      rcases items with _ | ⟨a, t⟩
      · simp at hps
      · simp
    unfold selectCandidates
    rw [if_neg hne]
    rw [if_neg (by simpa [List.isEmpty_iff] using hps)]
    simp only [if_pos hlim]
  · intro hne hps
    have hne' : ¬items.isEmpty := by simpa [List.isEmpty_iff] using hne
    unfold selectCandidates
    rw [if_neg hne', if_pos (by simpa [List.isEmpty_iff] using hps)]
    simp only [if_pos hlim]
    refine ⟨by trivial, ?_⟩
    have hlen : 0 < items.length := List.length_pos.mpr hne
    have hms : 0 < (items.mergeSort scoreKeyLE).length := by
      rw [List.length_mergeSort]
      exact hlen
    have htake : 0 < ((items.mergeSort scoreKeyLE).take limit.toNat).length := by
      rw [List.length_take]
      have : 0 < limit.toNat := by omega
      omega
    simp only [ne_eq, List.map_eq_nil_iff]
    intro hcon
    rw [hcon] at htake
    simp at htake

/-- Claim C5, witness: the amended theorem applied to a single passing
candidate with limit `10`. -/
theorem select_candidates_amended_witness :
    selectCandidates
        [{ failResAAA with pass_spread := true }] 10 =
      (((([{ failResAAA with pass_spread := true }].filter
            (·.pass_spread)).mergeSort scoreKeyLE).take (10 : ℤ).toNat).map
          (·.symbol),
        ([{ failResAAA with pass_spread := true }].filter (·.pass_spread)).length) :=
  (select_candidates_amended [{ failResAAA with pass_spread := true }] 10
    (by norm_num)).1 (by simp [List.filter])

/-- `DepthSnapshotMetrics` from `depth_metrics.py` (the band dict as an
association list). -/
structure DepthSnapshotMetrics where
  best_bid_notional : ℚ
  best_ask_notional : ℚ
  topn_bid_notional : ℚ
  topn_ask_notional : ℚ
  band_bid_notional : List (ℕ × ℚ)
  unwind_slippage_bps : Option ℚ

/-- The dictionary returned by `aggregate_depth_metrics`. -/
structure DepthAggregates where
  best_bid_notional_median : Option ℚ
  best_ask_notional_median : Option ℚ
  topn_bid_notional_median : Option ℚ
  topn_ask_notional_median : Option ℚ
  band_bid_notional_median : List (ℕ × ℚ)
  unwind_slippage_p90_bps : Option ℚ

/-- `aggregate_depth_metrics(snapshots, band_bps)`: all-`None` aggregates for
an empty snapshot list; otherwise medians of each notional series, per-band
medians with missing bands read as `0.0`, and the 0.9-percentile of the
defined slippage values. -/
def aggregateDepthMetrics (snaps : List DepthSnapshotMetrics) (band_bps : List ℕ) :
    DepthAggregates :=
  if snaps.isEmpty then
    { best_bid_notional_median := none
      best_ask_notional_median := none
      topn_bid_notional_median := none
      topn_ask_notional_median := none
      band_bid_notional_median := []
      unwind_slippage_p90_bps := none }
  else
    let slippage := snaps.filterMap (·.unwind_slippage_bps)
    { best_bid_notional_median :=
        some (statisticsMedian (snaps.map (·.best_bid_notional)))
      best_ask_notional_median :=
        some (statisticsMedian (snaps.map (·.best_ask_notional)))
      topn_bid_notional_median :=
        some (statisticsMedian (snaps.map (·.topn_bid_notional)))
      topn_ask_notional_median :=
        some (statisticsMedian (snaps.map (·.topn_ask_notional)))
      band_bid_notional_median := band_bps.map (fun b =>
        (b, statisticsMedian (snaps.map (fun s => (s.band_bid_notional.lookup b).getD 0))))
      unwind_slippage_p90_bps :=
        if slippage.isEmpty then none
        else some (percentileVal slippage.mergeSort (9 / 10)) }

/-- The slice of `DepthThresholdsConfig` read by `_evaluate_depth_criteria`. -/
structure DepthThresholdsCfg where
  best_level_min_notional : ℚ
  unwind_slippage_max_bps : ℚ
  band_10bps_min_notional : Option ℚ
  topN_min_notional : Option ℚ

/-- The slice of `DepthConfig` read by `_evaluate_depth_criteria`. -/
structure DepthCfg where
  enable_band_checks : Bool
  enable_topN_checks : Bool

/-- `_DepthCriteriaResult`. -/
structure DepthCriteriaResult where
  best_bid_notional_pass : Bool
  best_ask_notional_pass : Bool
  unwind_slippage_pass : Bool
  band_10bps_notional_pass : Option Bool
  topn_notional_pass : Option Bool
  fail_reasons : List String

/-- The best-bid block of `_evaluate_depth_criteria`: pass flag and
contributed fail reasons. -/
def bidCriterion (agg : DepthAggregates) (th : DepthThresholdsCfg) :
    Bool × List String :=
  match agg.best_bid_notional_median with
  | none => (false, ["missing_best_bid_notional"])
  | some v =>
    if th.best_level_min_notional ≤ v then (true, []) else (false, ["best_bid_notional_low"])

/-- The best-ask block of `_evaluate_depth_criteria`. -/
def askCriterion (agg : DepthAggregates) (th : DepthThresholdsCfg) :
    Bool × List String :=
  match agg.best_ask_notional_median with
  | none => (false, ["missing_best_ask_notional"])
  | some v =>
    if th.best_level_min_notional ≤ v then (true, []) else (false, ["best_ask_notional_low"])

/-- The unwind-slippage block of `_evaluate_depth_criteria`. -/
def unwindCriterion (agg : DepthAggregates) (th : DepthThresholdsCfg) :
    Bool × List String :=
  match agg.unwind_slippage_p90_bps with
  | none => (false, ["missing_unwind_slippage"])
  | some v =>
    if v ≤ th.unwind_slippage_max_bps then (true, []) else (false, ["unwind_slippage_high"])

/-- The optional band-10bps block: active only when `enable_band_checks` and a
configured threshold; the band dict is read at key `10`. -/
def bandCriterion (agg : DepthAggregates) (th : DepthThresholdsCfg) (dc : DepthCfg) :
    Option Bool × List String :=
  match dc.enable_band_checks, th.band_10bps_min_notional with
  | true, some m =>
    (match agg.band_bid_notional_median.lookup 10 with
      | none => (some false, ["missing_band_10bps_notional"])
      | some v =>
        if m ≤ v then (some true, []) else (some false, ["band_10bps_notional_low"]))
  | _, _ => (none, [])

/-- The optional top-N block: active only when `enable_topN_checks` and a
configured threshold; checks `min(topn_bid, topn_ask)`. -/
def topnCriterion (agg : DepthAggregates) (th : DepthThresholdsCfg) (dc : DepthCfg) :
    Option Bool × List String :=
  match dc.enable_topN_checks, th.topN_min_notional with
  | true, some m =>
    (match agg.topn_bid_notional_median, agg.topn_ask_notional_median with
      | some tb, some ta =>
        if m ≤ min tb ta then (some true, []) else (some false, ["topn_notional_low"])
      | _, _ => (some false, ["missing_topn_notional"]))
  | _, _ => (none, [])

/-- `_evaluate_depth_criteria(aggregates, thresholds, depth_cfg)`: the five
blocks in source order, fail reasons concatenated in that order. -/
def evaluateDepthCriteria (agg : DepthAggregates) (th : DepthThresholdsCfg)
    (dc : DepthCfg) : DepthCriteriaResult :=
  { best_bid_notional_pass := (bidCriterion agg th).1
    best_ask_notional_pass := (askCriterion agg th).1
    unwind_slippage_pass := (unwindCriterion agg th).1
    band_10bps_notional_pass := (bandCriterion agg th dc).1
    topn_notional_pass := (topnCriterion agg th dc).1
    fail_reasons := (bidCriterion agg th).2 ++ (askCriterion agg th).2 ++
      (unwindCriterion agg th).2 ++ (bandCriterion agg th dc).2 ++
      (topnCriterion agg th dc).2 }

/-- The per-symbol `fail_reasons` list built by `run_depth_check` (lines
406-421): the four sampling-error reasons, then the criteria reasons. -/
def symbolFailReasons (empty_book_count invalid_book_count symbol_unavailable_count
    valid_samples : ℕ) (criteria : DepthCriteriaResult) : List String :=
  (if empty_book_count ≠ 0 then ["empty_book"] else []) ++
    (if invalid_book_count ≠ 0 then ["invalid_book_levels"] else []) ++
    (if symbol_unavailable_count ≠ 0 then ["symbol_unavailable"] else []) ++
    (if valid_samples = 0 then ["no_valid_samples"] else []) ++
    criteria.fail_reasons

/-- `pass_depth = len(fail_reasons) == 0` from `run_depth_check` (line 427). -/
def symbolPassDepth (empty_book_count invalid_book_count symbol_unavailable_count
    valid_samples : ℕ) (criteria : DepthCriteriaResult) : Bool :=
  decide (symbolFailReasons empty_book_count invalid_book_count
    symbol_unavailable_count valid_samples criteria = [])

lemma bidCriterion_nil_iff (agg : DepthAggregates) (th : DepthThresholdsCfg) :
    (bidCriterion agg th).2 = [] ↔
      ∃ v, agg.best_bid_notional_median = some v ∧ th.best_level_min_notional ≤ v := by
  unfold bidCriterion
  rcases agg.best_bid_notional_median with _ | v
  · simp
  · by_cases h : th.best_level_min_notional ≤ v <;> simp [h]

lemma askCriterion_nil_iff (agg : DepthAggregates) (th : DepthThresholdsCfg) :
    (askCriterion agg th).2 = [] ↔
      ∃ v, agg.best_ask_notional_median = some v ∧ th.best_level_min_notional ≤ v := by
  unfold askCriterion
  rcases agg.best_ask_notional_median with _ | v
  · simp
  · by_cases h : th.best_level_min_notional ≤ v <;> simp [h]

lemma unwindCriterion_nil_iff (agg : DepthAggregates) (th : DepthThresholdsCfg) :
    (unwindCriterion agg th).2 = [] ↔
      ∃ v, agg.unwind_slippage_p90_bps = some v ∧ v ≤ th.unwind_slippage_max_bps := by
  unfold unwindCriterion
  rcases agg.unwind_slippage_p90_bps with _ | v
  · simp
  · by_cases h : v ≤ th.unwind_slippage_max_bps <;> simp [h]

lemma bandCriterion_nil_of_inactive {th : DepthThresholdsCfg} {dc : DepthCfg}
    (agg : DepthAggregates)
    (h : dc.enable_band_checks = false ∨ th.band_10bps_min_notional = none) :
    (bandCriterion agg th dc).2 = [] := by
  unfold bandCriterion
  rcases hdc : dc.enable_band_checks <;>
    rcases hth : th.band_10bps_min_notional with _ | m <;>
    simp_all

lemma bandCriterion_nil_iff_active {th : DepthThresholdsCfg} {dc : DepthCfg} {m : ℚ}
    (agg : DepthAggregates) (hdc : dc.enable_band_checks = true)
    (hth : th.band_10bps_min_notional = some m) :
    (bandCriterion agg th dc).2 = [] ↔
      ∃ v, agg.band_bid_notional_median.lookup 10 = some v ∧ m ≤ v := by
  unfold bandCriterion
  rw [hdc, hth]
  dsimp only
  rcases hl : agg.band_bid_notional_median.lookup 10 with _ | v
  · dsimp only
    simp
  · dsimp only
    by_cases h : m ≤ v
    · rw [if_pos h]
      simp [h]
    · rw [if_neg h]
      constructor
      · intro hcon
        exact absurd hcon (by simp)
      · rintro ⟨v1, hv1, hle⟩
        rw [Option.some.injEq] at hv1
        exact absurd (hv1 ▸ hle) h

lemma bandCriterion_nil_iff (agg : DepthAggregates) (th : DepthThresholdsCfg)
    (dc : DepthCfg) :
    (bandCriterion agg th dc).2 = [] ↔
      (∀ m : ℚ, dc.enable_band_checks = true → th.band_10bps_min_notional = some m →
        ∃ v, agg.band_bid_notional_median.lookup 10 = some v ∧ m ≤ v) := by
  rcases hdc : dc.enable_band_checks
  · simp only [Bool.false_eq_true, false_implies, implies_true, iff_true]
    exact bandCriterion_nil_of_inactive agg (Or.inl hdc)
  · rcases hth : th.band_10bps_min_notional with _ | m
    · simp only [hth, reduceCtorEq, false_implies, implies_true, iff_true]
      exact bandCriterion_nil_of_inactive agg (Or.inr hth)
    · rw [bandCriterion_nil_iff_active agg hdc hth]
      constructor
      · intro h m1 _ hm1
        rw [Option.some.injEq] at hm1
        exact hm1 ▸ h
      · intro h
        exact h m rfl rfl

lemma topnCriterion_nil_of_inactive {th : DepthThresholdsCfg} {dc : DepthCfg}
    (agg : DepthAggregates)
    (h : dc.enable_topN_checks = false ∨ th.topN_min_notional = none) :
    (topnCriterion agg th dc).2 = [] := by
  unfold topnCriterion
  rcases hdc : dc.enable_topN_checks <;>
    rcases hth : th.topN_min_notional with _ | m <;>
    simp_all

lemma topnCriterion_nil_iff_active {th : DepthThresholdsCfg} {dc : DepthCfg} {m : ℚ}
    (agg : DepthAggregates) (hdc : dc.enable_topN_checks = true)
    (hth : th.topN_min_notional = some m) :
    (topnCriterion agg th dc).2 = [] ↔
      ∃ tb ta, agg.topn_bid_notional_median = some tb ∧
        agg.topn_ask_notional_median = some ta ∧ m ≤ min tb ta := by
  unfold topnCriterion
  rw [hdc, hth]
  dsimp only
  rcases htb : agg.topn_bid_notional_median with _ | tb <;>
    rcases hta : agg.topn_ask_notional_median with _ | ta <;>
    dsimp only
  · simp
  · simp
  · simp
  · by_cases h : m ≤ min tb ta
    · rw [if_pos h]
      have h2 := le_min_iff.mp h
      simp [h2.1, h2.2]
    · rw [if_neg h]
      constructor
      · intro hcon
        exact absurd hcon (by simp)
      · rintro ⟨tb1, ta1, h1, h2, h3⟩
        rw [Option.some.injEq] at h1 h2
        subst h1
        subst h2
        exact absurd h3 h

lemma topnCriterion_nil_iff (agg : DepthAggregates) (th : DepthThresholdsCfg)
    (dc : DepthCfg) :
    (topnCriterion agg th dc).2 = [] ↔
      (∀ m : ℚ, dc.enable_topN_checks = true → th.topN_min_notional = some m →
        ∃ tb ta, agg.topn_bid_notional_median = some tb ∧
          agg.topn_ask_notional_median = some ta ∧ m ≤ min tb ta) := by
  rcases hdc : dc.enable_topN_checks
  · simp only [Bool.false_eq_true, false_implies, implies_true, iff_true]
    exact topnCriterion_nil_of_inactive agg (Or.inl hdc)
  · rcases hth : th.topN_min_notional with _ | m
    · simp only [hth, reduceCtorEq, false_implies, implies_true, iff_true]
      exact topnCriterion_nil_of_inactive agg (Or.inr hth)
    · rw [topnCriterion_nil_iff_active agg hdc hth]
      constructor
      · intro h m1 _ hm1
        rw [Option.some.injEq] at hm1
        exact hm1 ▸ h
      · intro h
        exact h m rfl rfl

lemma statisticsMedian_singleton (x : ℚ) : statisticsMedian [x] = x := by
  unfold statisticsMedian
  simp [List.mergeSort, pyMedianSorted]

lemma percentileVal_singleton (x q : ℚ) : percentileVal [x] q = x := by
  unfold percentileVal interpAt
  norm_num

/-- Claim C6 (amended): `pass_depth` as computed in `run_depth_check` is true
iff all three per-symbol error counters are zero, at least one valid sample
was collected, and the five criterion predicates of
`_evaluate_depth_criteria` hold (required best-bid, best-ask and
unwind-slippage checks, plus the band-10bps and top-N checks when enabled and
configured, a missing aggregate failing its predicate).  Depth uptime does not
occur in the condition, but the error counters do — contrary to the original
claim. -/
theorem pass_depth_iff :
    ∀ (e i u v : ℕ) (agg : DepthAggregates) (th : DepthThresholdsCfg) (dc : DepthCfg),
      symbolPassDepth e i u v (evaluateDepthCriteria agg th dc) = true ↔
        (e = 0 ∧ i = 0 ∧ u = 0 ∧ v ≠ 0 ∧
          (∃ x, agg.best_bid_notional_median = some x ∧
            th.best_level_min_notional ≤ x) ∧
          (∃ x, agg.best_ask_notional_median = some x ∧
            th.best_level_min_notional ≤ x) ∧
          (∃ x, agg.unwind_slippage_p90_bps = some x ∧
            x ≤ th.unwind_slippage_max_bps) ∧
          (∀ m : ℚ, dc.enable_band_checks = true →
            th.band_10bps_min_notional = some m →
            ∃ x, agg.band_bid_notional_median.lookup 10 = some x ∧ m ≤ x) ∧
          (∀ m : ℚ, dc.enable_topN_checks = true → th.topN_min_notional = some m →
            ∃ tb ta, agg.topn_bid_notional_median = some tb ∧
              agg.topn_ask_notional_median = some ta ∧ m ≤ min tb ta)) := by
  intro e i u v agg th dc
  unfold symbolPassDepth symbolFailReasons evaluateDepthCriteria
  simp only [decide_eq_true_eq, List.append_eq_nil, ite_cons_nil_eq_nil, not_not,
    ne_eq]
  rw [bidCriterion_nil_iff, askCriterion_nil_iff, unwindCriterion_nil_iff,
    bandCriterion_nil_iff, topnCriterion_nil_iff]
  tauto

/-- Claim C6, witness: the amended theorem applied at all-zero counters, one
valid sample, fully defined aggregates and both optional checks disabled. -/
theorem pass_depth_iff_witness :
    symbolPassDepth 0 0 0 1
        (evaluateDepthCriteria
          { best_bid_notional_median := some 7
            best_ask_notional_median := some 7
            topn_bid_notional_median := some 7
            topn_ask_notional_median := some 7
            band_bid_notional_median := []
            unwind_slippage_p90_bps := some 3 }
          { best_level_min_notional := 1
            unwind_slippage_max_bps := 50
            band_10bps_min_notional := none
            topN_min_notional := none }
          { enable_band_checks := false
            enable_topN_checks := false }) = true :=
  (pass_depth_iff 0 0 0 1 _ _ _).mpr
    ⟨rfl, rfl, rfl, one_ne_zero,
      ⟨7, rfl, by norm_num⟩, ⟨7, rfl, by norm_num⟩, ⟨3, rfl, by norm_num⟩,
      fun m hdc _ => by simp at hdc,
      fun m hdc _ => by simp at hdc⟩

/-- A depth snapshot with ample liquidity at every level. -/
def goodSnap : DepthSnapshotMetrics :=
  { best_bid_notional := 1000
    best_ask_notional := 1000
    topn_bid_notional := 1000
    topn_ask_notional := 1000
    band_bid_notional := [(10, 1000)]
    unwind_slippage_bps := some 5 }

/-- Permissive depth thresholds. -/
def cexTh : DepthThresholdsCfg :=
  { best_level_min_notional := 1
    unwind_slippage_max_bps := 100
    band_10bps_min_notional := some 1
    topN_min_notional := some 1 }

/-- Both optional checks enabled. -/
def cexDc : DepthCfg :=
  { enable_band_checks := true
    enable_topN_checks := true }

lemma cex_aggregates :
    aggregateDepthMetrics [goodSnap] [10] =
      { best_bid_notional_median := some 1000
        best_ask_notional_median := some 1000
        topn_bid_notional_median := some 1000
        topn_ask_notional_median := some 1000
        band_bid_notional_median := [(10, 1000)]
        unwind_slippage_p90_bps := some 5 } := by
  unfold aggregateDepthMetrics
  rw [if_neg (by simp)]
  simp [goodSnap, statisticsMedian_singleton, List.lookup, List.mergeSort,
    percentileVal_singleton]

/-- Claim C6, counterexample: a symbol whose aggregates pass every criterion
predicate (`fail_reasons` of `_evaluate_depth_criteria` is empty) but whose
`empty_book_count` is `1` still gets `pass_depth = false`, because the
per-symbol error counters feed the `fail_reasons` that define `pass_depth` —
refuting the claim that they are not pass criteria. -/
theorem pass_depth_error_counter_cex :
    (evaluateDepthCriteria (aggregateDepthMetrics [goodSnap] [10]) cexTh
        cexDc).fail_reasons = [] ∧
      symbolPassDepth 1 0 0 1
        (evaluateDepthCriteria (aggregateDepthMetrics [goodSnap] [10]) cexTh
          cexDc) = false := by
  rw [cex_aggregates]
  constructor
  · norm_num [evaluateDepthCriteria, bidCriterion, askCriterion, unwindCriterion,
      bandCriterion, topnCriterion, cexTh, cexDc, List.lookup]
  · norm_num [symbolPassDepth, symbolFailReasons, evaluateDepthCriteria,
      bidCriterion, askCriterion, unwindCriterion, bandCriterion, topnCriterion,
      cexTh, cexDc, List.lookup]

/-! ## HTTP retry backoff (`scanner/mexc/client.py`, `MexcClient._backoff_sleep`) -/

/-- The duration slept by `_backoff_sleep(attempt)`:
`capped = min(backoff_max_s, backoff_base_s * 2**(attempt-1))`,
`jitter = uniform(0, backoff_base_s)` (passed here as an argument), and
`time.sleep(min(backoff_max_s, capped + jitter))`. -/
def backoffSleepDuration (backoff_base_s backoff_max_s : ℚ) (attempt : ℕ)
    (jitter : ℚ) : ℚ :=
  min backoff_max_s (min backoff_max_s (backoff_base_s * 2 ^ (attempt - 1)) + jitter)

/-- Claim C8, counterexample: with `base = 1`, `backoff_max = 2`,
`attempt = 2` and drawn jitter `1`, the code sleeps `2`, while the claim's
formula `min(backoff_max, base * 2^(attempt-1)) + jitter` gives `3` — the
cap is applied again after the jitter is added. -/
theorem backoff_second_cap_cex :
    backoffSleepDuration 1 2 2 1 = 2 ∧
      min (2 : ℚ) (1 * 2 ^ (2 - 1 : ℕ)) + 1 = 3 ∧ (2 : ℚ) ≠ 3 := by
  norm_num [backoffSleepDuration]

/-- Claim C8 (amended): the slept duration is
`min(backoff_max, min(backoff_max, base * 2^(attempt-1)) + jitter)`: it never
exceeds `backoff_max`, and it equals the claim's formula exactly when that
formula does not exceed `backoff_max`. -/
theorem backoff_cap_after_jitter :
    ∀ (base maxS : ℚ) (attempt : ℕ) (jitter : ℚ), 0 ≤ jitter →
      backoffSleepDuration base maxS attempt jitter =
          min maxS (min maxS (base * 2 ^ (attempt - 1)) + jitter) ∧
        backoffSleepDuration base maxS attempt jitter ≤ maxS ∧
        (min maxS (base * 2 ^ (attempt - 1)) + jitter ≤ maxS →
          backoffSleepDuration base maxS attempt jitter =
            min maxS (base * 2 ^ (attempt - 1)) + jitter) := by
  intro base maxS attempt jitter hj
  refine ⟨rfl, min_le_left _ _, fun h => ?_⟩
  unfold backoffSleepDuration
  exact min_eq_right h

/-- Claim C8, witness: the amended theorem at `base = 1`, `max = 10`,
`attempt = 1`, `jitter = 0`. -/
theorem backoff_cap_after_jitter_witness :
    backoffSleepDuration 1 10 1 0 = min 10 (1 * 2 ^ (1 - 1 : ℕ)) + 0 := by
  apply (backoff_cap_after_jitter 1 10 1 0 le_rfl).2.2
  norm_num

/-! ## Spread sampling tick loop (`scanner/pipeline/spread_sampling.py`) -/

/-- `target_ticks = max(1, ceil(duration_s / interval_s))`. -/
def spreadTargetTicks (duration_s interval_s : ℚ) : ℕ :=
  max 1 (⌈duration_s / interval_s⌉.toNat)

/-- The tick loop of `run_spread_sampling` as written in the source:
`for tick_idx in range(target_ticks)` with one bulk book-ticker request per
tick (outcome given by `bulkOk`), accumulating
`(requests_made, tick_success, tick_fail)`.  The loop has no deadline
parameter and no break condition. -/
def runSpreadTicks (bulkOk : ℕ → Bool) (target_ticks : ℕ) : ℕ × ℕ × ℕ :=
  (List.range target_ticks).foldl
    (fun acc tick_idx =>
      (acc.1 + 1,
        acc.2.1 + (if bulkOk tick_idx then 1 else 0),
        acc.2.2 + (if bulkOk tick_idx then 0 else 1)))
    (0, 0, 0)

lemma spread_foldl_fst (bulkOk : ℕ → Bool) (l : List ℕ) :
    ∀ acc : ℕ × ℕ × ℕ,
      (l.foldl
        (fun acc tick_idx =>
          (acc.1 + 1,
            acc.2.1 + (if bulkOk tick_idx then 1 else 0),
            acc.2.2 + (if bulkOk tick_idx then 0 else 1)))
        acc).1 = acc.1 + l.length := by
  induction l with
  | nil =>
    intro acc
    simp
  | cons a t ih =>
    intro acc
    rw [List.foldl_cons, ih]
    simp only [List.length_cons]
    omega

/-- Claim C9 (code_bug): the tick loop of `run_spread_sampling` in
`scanner/pipeline/spread_sampling.py` iterates over `range(target_ticks)`
unconditionally — the function accepts no deadline argument, never checks a
deadline at a tick boundary, and the `SpreadSampleResult` it constructs omits
the required `timed_out` and `elapsed_s` fields — even though its caller
`stages._run_spread` passes `deadline_ts=` and
`tests/test_pipeline_timeouts.py::test_spread_sampling_timeout` requires
`timed_out = True` with zero client calls for an already-expired deadline.
Evaluating the embedded loop at the failing input's configuration
(`duration_s = 10`, `interval_s = 1`): every outcome sequence issues exactly
`10` bulk requests, one per tick, with no deadline consulted. -/
theorem spread_loop_ignores_deadline :
    spreadTargetTicks 10 1 = 10 ∧
      ∀ bulkOk : ℕ → Bool, (runSpreadTicks bulkOk (spreadTargetTicks 10 1)).1 = 10 := by
  have hceil : ⌈(10 : ℚ) / 1⌉ = 10 := by
    norm_num
  have h10 : spreadTargetTicks 10 1 = 10 := by
    unfold spreadTargetTicks
    rw [hceil]
    rfl
  refine ⟨h10, fun bulkOk => ?_⟩
  rw [h10]
  unfold runSpreadTicks
  rw [spread_foldl_fst]
  simp

/-! ## Universe reject reasons (`scanner/pipeline/universe.py`, first pass) -/

/-- The reject classification of the first candidate loop of `build_universe`
(lines 110-131): not in `defaultSymbols`, missing exchange metadata, wrong
quote asset, or disallowed/missing exchange status; `none` means the symbol
goes on to the `tradable` list. -/
def universeFirstPassReason (in_default in_exchange : Bool)
    (quote_asset status : Option String) (cfg_quote : String)
    (allowed_status : List String) : Option String :=
  if !in_default then some "not_in_defaultSymbols"
  else if !in_exchange then some "metadata_missing"
  else if quote_asset ≠ some cfg_quote then some "quote_asset_not_allowed"
  else
    match status with
    | none => some "status_not_allowed"
    | some s => if s ∉ allowed_status then some "status_not_allowed" else none

/-- Claim C10, counterexample: for a symbol absent from the default symbols
list, the recorded reject reason is the string `not_in_defaultSymbols`, which
is not the claimed verbatim code `not_in_default_list`. -/
theorem universe_reject_reason_cex :
    universeFirstPassReason false true (some "USDT") (some "1") "USDT" ["1"] =
        some "not_in_defaultSymbols" ∧
      ("not_in_defaultSymbols" : String) ≠ "not_in_default_list" := by
  exact ⟨rfl, by simp⟩

/-- Claim C10 (amended): every reason emitted by the first classification
pass of `build_universe` comes verbatim from the fixed set
`{not_in_defaultSymbols, metadata_missing, quote_asset_not_allowed,
status_not_allowed}`, and a symbol absent from the default list is rejected
with exactly `not_in_defaultSymbols` (not `not_in_default_list`). -/
theorem universe_reject_reasons_amended :
    ∀ (in_default in_exchange : Bool) (quote_asset status : Option String)
      (cfg_quote : String) (allowed_status : List String),
      (∀ r, universeFirstPassReason in_default in_exchange quote_asset status
          cfg_quote allowed_status = some r →
        r ∈ ["not_in_defaultSymbols", "metadata_missing", "quote_asset_not_allowed",
          "status_not_allowed"]) ∧
      (in_default = false →
        universeFirstPassReason in_default in_exchange quote_asset status
          cfg_quote allowed_status = some "not_in_defaultSymbols") := by
  intro in_default in_exchange quote_asset status cfg_quote allowed_status
  constructor
  · intro r hr
    unfold universeFirstPassReason at hr
    rcases status with _ | s <;> split_ifs at hr <;> simp_all
  · intro h
    subst h
    rfl

/-- Claim C10, witness: the amended theorem applied to a symbol absent from
the default list. -/
theorem universe_reject_reasons_amended_witness :
    universeFirstPassReason false true none none "USDT" [] =
      some "not_in_defaultSymbols" :=
  (universe_reject_reasons_amended false true none none "USDT" []).2 rfl

/-- Claim C3, witness: the equivalence instantiated at the all-default stats
and an all-zero configuration. -/
theorem fail_reasons_empty_iff_pass_spread_witness :
    (((scoreSymbol statsEmpty
          { maker_bps := 0, taker_bps := 0, buffer_bps := 0, uptime_min := 0,
            median_min_bps := 0, median_max_bps := 0, p90_min_bps := 0,
            p90_max_bps := 0, edge_min_bps := 0 }).fail_reasons = [] ↔
        (scoreSymbol statsEmpty
          { maker_bps := 0, taker_bps := 0, buffer_bps := 0, uptime_min := 0,
            median_min_bps := 0, median_max_bps := 0, p90_min_bps := 0,
            p90_max_bps := 0, edge_min_bps := 0 }).pass_spread = true) ∧
      "missing_24h_stats" ∉
        (scoreSymbol statsEmpty
          { maker_bps := 0, taker_bps := 0, buffer_bps := 0, uptime_min := 0,
            median_min_bps := 0, median_max_bps := 0, p90_min_bps := 0,
            p90_max_bps := 0, edge_min_bps := 0 }).fail_reasons) :=
  fail_reasons_empty_iff_pass_spread statsEmpty
    { maker_bps := 0, taker_bps := 0, buffer_bps := 0, uptime_min := 0,
      median_min_bps := 0, median_max_bps := 0, p90_min_bps := 0,
      p90_max_bps := 0, edge_min_bps := 0 }
